import Mathlib

/-!
# Shallow embedding of romfu (src/main.go)

The program scans a library root for per-title game directories, selects one
content subdirectory per title by priority, and assembles an ordered list of
rclone union upstreams (an optional writable overlay first, then one
read-only upstream per title), rendered into the `UPSTREAMS` string of an
rclone config expressed as environment variables.

Filesystem effects are modelled by explicit inputs:
* the library root listing (`ioutil.ReadDir`) becomes a `List DirEntry`;
* the `os.Stat(p); stat.IsDir()` probe becomes an oracle `statIsDir : String → Bool`;
* the result of `os.MkdirAll` becomes a `Bool` input (the source discards it);
* the process RNG (`rand.Intn`) becomes an oracle `Nat → Nat → Nat`
  (call index, bound) — `RandString` is defined in the source but never called;
* Go map iteration order over `rcloneConfig` becomes two `Bool` inputs that
  pick the order of the emitted `Setenv` calls.
-/

namespace Romfu

/-- Models Go `path.Join a b` for the already-clean, nonempty, slash-free
components this program joins (a root path, a directory-entry name, a fixed
subdirectory name): plain concatenation with a single separator. -/
def pathJoin (a b : String) : String := a ++ "/" ++ b

/-- main.go:18-25 `fmtRclone`: a double-quoted `remote:path[:option]*` entry.
The options loop is the fold over `options`. -/
def fmtRclone (remote : String) (p : String) (options : List String) : String :=
  (options.foldl (fun acc option => acc ++ ":" ++ option)
    ("\"" ++ remote ++ ":" ++ p)) ++ "\""

/-- main.go:28-31 `Rom`. -/
structure Rom where
  DirPath : String
  SubdirName : String
deriving DecidableEq

/-- main.go:34-36 `Rom.Parent`. -/
def Rom.Parent (r : Rom) : String := pathJoin r.DirPath r.SubdirName

/-- main.go:38 `invalidGameDirNames`. -/
def invalidGameDirNames : List String := ["rw", "titles"]

/-- main.go:39 `validSubdirNames`. -/
def validSubdirNames : List String := ["merged", "base"]

/-- main.go:63 `letterRunes`. -/
def letterRunes : List Char :=
  "abcdefghijklmnopqrstuvwxyzABCDEFGHIJKLMNOPQRSTUVWXYZ".toList

/-- main.go:66-72 `RandString`. `randIntn i k` models the `i`-th call to
`rand.Intn k`; Go guarantees the result lies in `[0, k)`, modelled by
reducing modulo the bound. Defined in the source but never invoked. -/
def RandString (n : Nat) (randIntn : Nat → Nat → Nat) : String :=
  String.mk ((List.range n).map (fun i =>
    letterRunes.getD (randIntn i letterRunes.length % letterRunes.length) 'a'))

/-- Models Go `strings.HasPrefix s pre` (main.go:128): the character
sequence of `pre` is an initial segment of the character sequence of `s`.
Stated over the character lists so that concrete instances evaluate. -/
def strHasPre (s pre : String) : Bool := pre.data.isPrefixOf s.data

/-- One entry of the library-root listing returned by `ioutil.ReadDir`
(main.go:104): its name and whether it is a directory. -/
structure DirEntry where
  name : String
  isDir : Bool
deriving DecidableEq

/-- main.go:118-164, body of the scan loop for one listing entry: skip
non-directories, hidden names (leading dot), and blacklisted names; otherwise
probe `dir/merged` then `dir/base` in order and keep the first that exists as
a directory (`break` after the first hit is `List.find?`). -/
def scanEntry (src : String) (statIsDir : String → Bool) (e : DirEntry) :
    Option Rom :=
  if !e.isDir then none
  else if strHasPre e.name "." then none
  else if invalidGameDirNames.contains e.name then none
  else
    let dirPath := pathJoin src e.name
    match validSubdirNames.find? (fun s => statIsDir (pathJoin dirPath s)) with
    | some s => some { DirPath := dirPath, SubdirName := s }
    | none => none

/-- main.go:113-164: the whole scan loop, accumulating `roms` in listing
order (each iteration appends at most one `Rom`). -/
def scan (src : String) (files : List DirEntry) (statIsDir : String → Bool) :
    List Rom :=
  files.filterMap (scanEntry src statIsDir)

/-- Access mode of one union upstream: read-write (no option) or read-only
(`:ro` option). -/
inductive AccessMode where
  | rw
  | ro
deriving DecidableEq

/-- One entry of the ordered upstream sequence handed to rclone. -/
structure OverlayUpstream where
  sourcePath : String
  accessMode : AccessMode
deriving DecidableEq

/-- main.go:174 `remoteLocal`. -/
def remoteLocal : String := "ROMFULOCAL"

/-- main.go:175 `remoteUnion`. -/
def remoteUnion : String := "ROMFUUNION"

/-- The upstream sequence in the order main.go:188-203 appends entries to
`UPSTREAMS`: the writable `libraryRoot/rw` entry first when `enableWrite`,
then one read-only entry per scanned rom, in rom order. -/
def upstreamList (src : String) (roms : List Rom) (enableWrite : Bool) :
    List OverlayUpstream :=
  (if enableWrite then [⟨pathJoin src "rw", AccessMode.rw⟩] else [])
    ++ roms.map (fun r => ⟨r.Parent, AccessMode.ro⟩)

/-- main.go:183-203: the `UPSTREAMS` string. Starts empty (or with the
writable entry followed by one space, main.go:191); the separator is a single
space only when more than one rom was found (main.go:195-198); each rom
appends its quoted `:ro` entry followed by the separator (main.go:201-203). -/
def upstreamsString (src : String) (roms : List Rom) (enableWrite : Bool) :
    String :=
  let base :=
    if enableWrite then fmtRclone remoteLocal (pathJoin src "rw") [] ++ " "
    else ""
  let separator := if roms.length > 1 then " " else ""
  roms.foldl (fun acc r => acc ++ fmtRclone remoteLocal r.Parent ["ro"] ++ separator)
    base

/-- main.go:206-213: the `Setenv` calls applying `rcloneConfig`. Go map
iteration order is unspecified, so the order of the outer two remotes
(`localFirst`) and of the union remote's two options (`typeFirst`) are
explicit inputs; the assigned key/value pairs themselves do not depend on
them. -/
def envAssignments (upstreams : String) (localFirst : Bool) (typeFirst : Bool) :
    List (String × String) :=
  let localVars := [("RCLONE_CONFIG_" ++ remoteLocal ++ "_TYPE", "local")]
  let unionVars :=
    let tVar := ("RCLONE_CONFIG_" ++ remoteUnion ++ "_TYPE", "union")
    let uVar := ("RCLONE_CONFIG_" ++ remoteUnion ++ "_UPSTREAMS", upstreams)
    if typeFirst then [tVar, uVar] else [uVar, tVar]
  if localFirst then localVars ++ unionVars else unionVars ++ localVars

/-- Outcome of one `createFS` run: `fatalNoTitles` is the `log.Fatal` at
main.go:167-169 (non-zero exit before any overlay construction or mount);
`mounted` records the rendered `UPSTREAMS` string and the applied environment
assignments at the point `rclone mount` is invoked (main.go:216-224). -/
inductive RunOutcome where
  | fatalNoTitles
  | mounted (upstreams : String) (env : List (String × String))
deriving DecidableEq

/-- Whether the run reached the `rclone mount` invocation. -/
def RunOutcome.mountInvoked : RunOutcome → Bool
  | RunOutcome.fatalNoTitles => false
  | RunOutcome.mounted _ _ => true

/-- The `UPSTREAMS` string a run handed to rclone, if it mounted at all. -/
def RunOutcome.upstreamsOut : RunOutcome → Option String
  | RunOutcome.fatalNoTitles => none
  | RunOutcome.mounted s _ => some s

/-- main.go:98-226 `createFS`. `mkdirRwOk` is whether the
`os.MkdirAll(rwDirPath, 0755)` call at main.go:190 succeeds: the source
discards its error, so no branch of the run inspects it. `randIntn` is the
process RNG; `createFS` never calls `RandString`, so no branch inspects it
either. -/
def createFS (src : String) (files : List DirEntry) (statIsDir : String → Bool)
    (enableWrite : Bool) (mkdirRwOk : Bool) (randIntn : Nat → Nat → Nat)
    (localFirst : Bool) (typeFirst : Bool) : RunOutcome :=
  let roms := scan src files statIsDir
  if roms.isEmpty then RunOutcome.fatalNoTitles
  else
    let upstreams := upstreamsString src roms enableWrite
    RunOutcome.mounted upstreams (envAssignments upstreams localFirst typeFirst)

/-- Spec-side rendering (§6/§8 of the spec): a list of entries joined by
single spaces with no trailing separator. Used to compare the rendering in
the source against the description of it in the spec. -/
def sepBySpace : List String → String
  | [] => ""
  | [x] => x
  | x :: y :: xs => x ++ " " ++ sepBySpace (y :: xs)

/-- A read-only `fmtRclone` entry is the double-quoted remote-path body
suffixed with `:ro`. -/
lemma fmtRclone_ro_eq (p : String) :
    fmtRclone remoteLocal p ["ro"]
      = "\"" ++ (remoteLocal ++ ":" ++ p ++ ":" ++ "ro") ++ "\"" := by
  simp [fmtRclone, String.append_assoc]

/-- Accumulating entries each followed by a single space equals the
space-separated rendering followed by one trailing space. -/
lemma foldl_trailing (l : List String) :
    ∀ init : String, l ≠ [] →
      l.foldl (fun acc x => acc ++ x ++ " ") init
        = init ++ (sepBySpace l ++ " ") := by
  induction l with
  | nil => intro _ h; exact absurd rfl h
  | cons x t ih =>
    intro init _
    match t, ih with
    | [], _ => simp [sepBySpace, String.append_assoc]
    | y :: xs, ih =>
      rw [List.foldl_cons, ih (init ++ x ++ " ") (by simp)]
      simp [sepBySpace, String.append_assoc]

/-- C1: with `enableWrite = false`, the rendered `UPSTREAMS` string is
exactly the `N` double-quoted, `:ro`-suffixed entries (one per resolved rom,
in order) joined by single spaces, followed by one trailing space only when
`N > 1` — so a single entry carries no trailing separator and consecutive
entries are separated by exactly one space. -/
theorem upstreams_render_readonly (src : String) (roms : List Rom) :
    upstreamsString src roms false
      = sepBySpace (roms.map (fun r =>
            "\"" ++ (remoteLocal ++ ":" ++ r.Parent ++ ":" ++ "ro") ++ "\""))
          ++ (if 1 < roms.length then " " else "") := by
  unfold upstreamsString
  rw [if_neg (by simp : ¬((false : Bool) = true))]
  by_cases h : roms.length > 1
  · rw [if_pos h]
    dsimp only
    have hne : roms ≠ [] := by
      intro hc
      rw [hc] at h
      simp at h
    have hmap :
        roms.foldl
            (fun acc rom => acc ++ fmtRclone remoteLocal rom.Parent ["ro"] ++ " ") ""
          = (roms.map (fun rom => fmtRclone remoteLocal rom.Parent ["ro"])).foldl
              (fun acc x => acc ++ x ++ " ") "" := by
      rw [List.foldl_map]
    have hne2 : roms.map (fun rom => fmtRclone remoteLocal rom.Parent ["ro"]) ≠ [] := by
      simpa using hne
    rw [hmap, foldl_trailing _ "" hne2]
    simp [fmtRclone_ro_eq, String.append_assoc]
  · rw [if_neg h]
    dsimp only
    match roms, h with
    | [], _ => simp [sepBySpace]
    | [r], _ => simp [sepBySpace, fmtRclone_ro_eq, String.append_assoc]
    | r :: y :: xs, h => exact absurd (by simp) h

/-- C3: with `enableWrite = true`, the upstream sequence of a run is the
single read-write `libraryRoot/rw` entry followed by the read-only entries;
in particular the read-write entry is first, it is the only read-write
entry, and everything after it is read-only. -/
theorem write_upstream_unique_first (src : String) (files : List DirEntry)
    (statIsDir : String → Bool) :
    upstreamList src (scan src files statIsDir) true
        = ⟨pathJoin src "rw", AccessMode.rw⟩
            :: (scan src files statIsDir).map
                (fun r => ⟨r.Parent, AccessMode.ro⟩)
      ∧ (upstreamList src (scan src files statIsDir) true).countP
          (fun u => u.accessMode == AccessMode.rw) = 1
      ∧ (upstreamList src (scan src files statIsDir) true).tail.all
          (fun u => u.accessMode == AccessMode.ro) = true := by
  refine ⟨rfl, ?_, ?_⟩
  · show (((⟨pathJoin src "rw", AccessMode.rw⟩ : OverlayUpstream)
        :: (scan src files statIsDir).map
            (fun r => (⟨r.Parent, AccessMode.ro⟩ : OverlayUpstream))).countP
          (fun u => u.accessMode == AccessMode.rw)) = 1
    rw [List.countP_cons]
    have hzero : ((scan src files statIsDir).map
        (fun r => (⟨r.Parent, AccessMode.ro⟩ : OverlayUpstream))).countP
          (fun u => u.accessMode == AccessMode.rw) = 0 := by
      rw [List.countP_eq_zero]
      intro u hu
      rw [List.mem_map] at hu
      obtain ⟨r, _, rfl⟩ := hu
      simp
    rw [hzero]
    simp
  · show ((scan src files statIsDir).map
        (fun r => (⟨r.Parent, AccessMode.ro⟩ : OverlayUpstream))).all
          (fun u => u.accessMode == AccessMode.ro) = true
    rw [List.all_eq_true]
    intro u hu
    rw [List.mem_map] at hu
    obtain ⟨r, _, rfl⟩ := hu
    rfl

/-- C4: with `enableWrite = false`, the upstream sequence of a run is exactly
the read-only image of the scanned roms in scan order: every entry is
read-only and the length equals the number of resolved titles. -/
theorem readonly_upstreams_preserve_scan (src : String) (files : List DirEntry)
    (statIsDir : String → Bool) :
    upstreamList src (scan src files statIsDir) false
        = (scan src files statIsDir).map (fun r => ⟨r.Parent, AccessMode.ro⟩)
      ∧ (upstreamList src (scan src files statIsDir) false).length
          = (scan src files statIsDir).length
      ∧ (upstreamList src (scan src files statIsDir) false).all
          (fun u => u.accessMode == AccessMode.ro) = true := by
  refine ⟨rfl, ?_, ?_⟩
  · show ((scan src files statIsDir).map
        (fun r => (⟨r.Parent, AccessMode.ro⟩ : OverlayUpstream))).length
      = (scan src files statIsDir).length
    rw [List.length_map]
  · show ((scan src files statIsDir).map
        (fun r => (⟨r.Parent, AccessMode.ro⟩ : OverlayUpstream))).all
          (fun u => u.accessMode == AccessMode.ro) = true
    rw [List.all_eq_true]
    intro u hu
    rw [List.mem_map] at hu
    obtain ⟨r, _, rfl⟩ := hu
    rfl

/-- C5: for a surviving title directory (a directory, not hidden, not
blacklisted) in which both the `merged` and the `base` subdirectory exist as
directories, the scan resolves the title to `merged`. The candidate probes
are explicit `stat` calls in the fixed order of `validSubdirNames`, so no
directory-listing order is even consulted. -/
theorem merged_selected_over_base (src : String) (statIsDir : String → Bool)
    (e : DirEntry) (hdir : e.isDir = true)
    (hhidden : strHasPre e.name "." = false)
    (hblock : invalidGameDirNames.contains e.name = false)
    (hm : statIsDir (pathJoin (pathJoin src e.name) "merged") = true)
    (hb : statIsDir (pathJoin (pathJoin src e.name) "base") = true) :
    scanEntry src statIsDir e = some ⟨pathJoin src e.name, "merged"⟩ := by
  unfold scanEntry
  rw [hdir, hhidden, hblock]
  simp only [Bool.not_true, Bool.false_eq_true, if_false]
  rw [show validSubdirNames.find?
      (fun s => statIsDir (pathJoin (pathJoin src e.name) s)) = some "merged" by
    simp [validSubdirNames, List.find?, hm]]

/-- Witness for C5 at a concrete library: an oracle answering true for both
candidates, with entry `game`. -/
theorem merged_selected_over_base_witness :
    ((fun _ => true : String → Bool) (pathJoin (pathJoin "lib" "game") "merged") = true
        ∧ (fun _ => true : String → Bool) (pathJoin (pathJoin "lib" "game") "base") = true)
      ∧ scanEntry "lib" (fun _ => true) ⟨"game", true⟩
          = some ⟨pathJoin "lib" "game", "merged"⟩ :=
  ⟨⟨rfl, rfl⟩, merged_selected_over_base "lib" (fun _ => true) ⟨"game", true⟩
    rfl (by decide) (by decide) rfl rfl⟩

/-- An entry that is not a directory, is hidden, or bears a blacklisted name
contributes nothing to the scan. -/
lemma scanEntry_none_of_invalid (src : String) (statIsDir : String → Bool)
    (e : DirEntry)
    (h : e.isDir = false ∨ strHasPre e.name "." = true
          ∨ invalidGameDirNames.contains e.name = true) :
    scanEntry src statIsDir e = none := by
  obtain ⟨nm, d⟩ := e
  unfold scanEntry
  cases d <;> rcases h with h | h | h <;> simp_all

/-- C6: a library whose immediate children are all hidden, non-directories,
or named exactly `rw` or `titles` scans to the empty rom sequence. -/
theorem scan_empty_of_all_invalid (src : String) (files : List DirEntry)
    (statIsDir : String → Bool)
    (h : ∀ e ∈ files, e.isDir = false ∨ strHasPre e.name "." = true
          ∨ e.name = "rw" ∨ e.name = "titles") :
    scan src files statIsDir = [] := by
  unfold scan
  rw [List.filterMap_eq_nil_iff]
  intro e he
  apply scanEntry_none_of_invalid
  rcases h e he with h1 | h1 | h1 | h1
  · exact Or.inl h1
  · exact Or.inr (Or.inl h1)
  · refine Or.inr (Or.inr ?_)
    simp [invalidGameDirNames, h1]
  · refine Or.inr (Or.inr ?_)
    simp [invalidGameDirNames, h1]

/-- Witness for C6: a library holding one hidden directory, one plain file,
and the two blocked names scans to the empty sequence. -/
theorem scan_empty_of_all_invalid_witness :
    (∀ e ∈ ([⟨".hidden", true⟩, ⟨"file", false⟩, ⟨"rw", true⟩,
          ⟨"titles", true⟩] : List DirEntry),
        e.isDir = false ∨ strHasPre e.name "." = true
          ∨ e.name = "rw" ∨ e.name = "titles")
      ∧ scan "lib" [⟨".hidden", true⟩, ⟨"file", false⟩, ⟨"rw", true⟩,
          ⟨"titles", true⟩] (fun _ => true) = [] :=
  ⟨by decide, scan_empty_of_all_invalid "lib" _ (fun _ => true) (by decide)⟩

/-- C7: a surviving title directory in which neither `merged` nor `base`
exists as a directory is silently excluded: its scan result is `none`, and a
listing with it scans to exactly the same rom sequence as the listing
without it. The scan is a total function into `List Rom`: no error value or
failure record exists for it to produce. -/
theorem no_candidate_silently_dropped (src : String) (statIsDir : String → Bool)
    (e : DirEntry) (pre post : List DirEntry) (hdir : e.isDir = true)
    (hhidden : strHasPre e.name "." = false)
    (hblock : invalidGameDirNames.contains e.name = false)
    (hm : statIsDir (pathJoin (pathJoin src e.name) "merged") = false)
    (hb : statIsDir (pathJoin (pathJoin src e.name) "base") = false) :
    scanEntry src statIsDir e = none
      ∧ scan src (pre ++ e :: post) statIsDir = scan src (pre ++ post) statIsDir := by
  have hnone : scanEntry src statIsDir e = none := by
    unfold scanEntry
    rw [hdir, hhidden, hblock]
    simp only [Bool.not_true, Bool.false_eq_true, if_false]
    rw [show validSubdirNames.find?
        (fun s => statIsDir (pathJoin (pathJoin src e.name) s)) = none by
      simp [validSubdirNames, List.find?, hm, hb]]
  refine ⟨hnone, ?_⟩
  unfold scan
  rw [List.filterMap_append, List.filterMap_append, List.filterMap_cons, hnone]

/-- Witness for C7: with an oracle that answers false everywhere, the entry
`game` is dropped and the scan of `[a, game]` equals the scan of `[a]`. -/
theorem no_candidate_silently_dropped_witness :
    ((fun _ => false : String → Bool) (pathJoin (pathJoin "lib" "game") "merged") = false
        ∧ (fun _ => false : String → Bool) (pathJoin (pathJoin "lib" "game") "base") = false)
      ∧ scanEntry "lib" (fun _ => false) ⟨"game", true⟩ = none
      ∧ scan "lib" ([⟨"a", true⟩] ++ ⟨"game", true⟩ :: []) (fun _ => false)
          = scan "lib" ([⟨"a", true⟩] ++ []) (fun _ => false) :=
  ⟨⟨rfl, rfl⟩,
    (no_candidate_silently_dropped "lib" (fun _ => false) ⟨"game", true⟩
      [⟨"a", true⟩] [] rfl (by decide) (by decide) rfl rfl).1,
    (no_candidate_silently_dropped "lib" (fun _ => false) ⟨"game", true⟩
      [⟨"a", true⟩] [] rfl (by decide) (by decide) rfl rfl).2⟩

/-- C8: when the scan resolves zero titles the run ends in the fatal
no-titles outcome — the non-zero-exit `log.Fatal` at main.go:167-169 — and
never reaches the mount invocation; `fatalNoTitles` carries no overlay data
because the check precedes all overlay construction (main.go:177-203). -/
theorem zero_titles_fatal_before_mount (src : String) (files : List DirEntry)
    (statIsDir : String → Bool) (enableWrite mkdirRwOk : Bool)
    (randIntn : Nat → Nat → Nat) (localFirst typeFirst : Bool)
    (h : scan src files statIsDir = []) :
    createFS src files statIsDir enableWrite mkdirRwOk randIntn localFirst typeFirst
        = RunOutcome.fatalNoTitles
      ∧ (createFS src files statIsDir enableWrite mkdirRwOk randIntn localFirst
          typeFirst).mountInvoked = false := by
  have hfatal : createFS src files statIsDir enableWrite mkdirRwOk randIntn
      localFirst typeFirst = RunOutcome.fatalNoTitles := by
    unfold createFS
    rw [h]
    rfl
  exact ⟨hfatal, by rw [hfatal]; rfl⟩

/-- Witness for C8: an empty library root ends fatally without mounting. -/
theorem zero_titles_fatal_before_mount_witness :
    scan "lib" [] (fun _ => true) = []
      ∧ createFS "lib" [] (fun _ => true) true true (fun _ _ => 0) true true
          = RunOutcome.fatalNoTitles
      ∧ (createFS "lib" [] (fun _ => true) true true (fun _ _ => 0) true
          true).mountInvoked = false :=
  ⟨rfl,
    (zero_titles_fatal_before_mount "lib" [] (fun _ => true) true true
      (fun _ _ => 0) true true rfl).1,
    (zero_titles_fatal_before_mount "lib" [] (fun _ => true) true true
      (fun _ _ => 0) true true rfl).2⟩

/-- C2 evaluated on the code: main.go:190 discards the error returned by
`os.MkdirAll`, so a run with `enableWrite = true` whose writable-directory
creation fails (here `mkdirRwOk = false`) still reaches the mount
invocation, and its `UPSTREAMS` string still advertises the `rw` directory
that was never created — contradicting the spec sentence that such a run
fails fatally before mounting. -/
theorem mkdir_failure_still_mounts :
    (createFS "lib" [⟨"game", true⟩] (fun p => p == "lib/game/merged") true false
        (fun _ _ => 0) true true).mountInvoked = true
      ∧ (createFS "lib" [⟨"game", true⟩] (fun p => p == "lib/game/merged") true false
          (fun _ _ => 0) true true).upstreamsOut
        = some ("\"ROMFULOCAL:lib/rw\" " ++ "\"ROMFULOCAL:lib/game/merged:ro\"") := by
  constructor
  · rfl
  · decide

/-- Every rom resolved by the scan sits one level below the library root
with a subdirectory drawn from `validSubdirNames`. -/
lemma subdir_of_mem_scan {src : String} {files : List DirEntry}
    {statIsDir : String → Bool} {r : Rom}
    (h : r ∈ scan src files statIsDir) :
    (∃ nm, r.DirPath = pathJoin src nm) ∧ r.SubdirName ∈ validSubdirNames := by
  unfold scan at h
  rw [List.mem_filterMap] at h
  obtain ⟨e, _, he⟩ := h
  unfold scanEntry at he
  split at he
  · exact absurd he (by simp)
  · split at he
    · exact absurd he (by simp)
    · split at he
      · exact absurd he (by simp)
      · dsimp only at he
        split at he
        next s hfind =>
          obtain rfl : ({ DirPath := pathJoin src e.name, SubdirName := s } : Rom) = r :=
            Option.some.inj he
          exact ⟨⟨e.name, rfl⟩, List.mem_of_find?_eq_some hfind⟩
        next => exact absurd he (by simp)

/-- C9: in no run does the writable overlay directory `libraryRoot/rw`
appear as a read-only upstream: every read-only upstream points at
`libraryRoot/name/subdir` for some scanned entry name and a candidate
subdirectory (`merged` or `base`), and such a path is always strictly longer
than `libraryRoot/rw`; a pre-existing `rw` child is filtered out by the
blacklist, and the only `rw` upstream is the read-write one added when
`enableWrite = true`. -/
theorem rw_never_readonly_upstream (src : String) (files : List DirEntry)
    (statIsDir : String → Bool) (enableWrite : Bool) (u : OverlayUpstream)
    (hu : u ∈ upstreamList src (scan src files statIsDir) enableWrite)
    (hro : u.accessMode = AccessMode.ro) :
    u.sourcePath ≠ pathJoin src "rw" := by
  unfold upstreamList at hu
  rw [List.mem_append] at hu
  rcases hu with hu | hu
  · cases enableWrite with
    | false => simp at hu
    | true =>
      simp at hu
      rw [hu] at hro
      exact absurd hro (by simp)
  · rw [List.mem_map] at hu
    obtain ⟨r, hr, rfl⟩ := hu
    obtain ⟨⟨nm, hdp⟩, hsn⟩ := subdir_of_mem_scan hr
    intro heq
    have hlen := congrArg String.length heq
    rw [Rom.Parent, hdp] at hlen
    unfold pathJoin at hlen
    simp only [String.length_append] at hlen
    have h1 : ("/" : String).length = 1 := rfl
    have h2 : ("rw" : String).length = 2 := rfl
    rw [h1, h2] at hlen
    have hcases : r.SubdirName = "merged" ∨ r.SubdirName = "base" := by
      simpa [validSubdirNames] using hsn
    rcases hcases with h3 | h3 <;> rw [h3] at hlen
    · have h4 : ("merged" : String).length = 6 := rfl
      rw [h4] at hlen
      omega
    · have h4 : ("base" : String).length = 4 := rfl
      rw [h4] at hlen
      omega

/-- Witness for C9: in a concrete read-only run the single upstream is a
member of the upstream list and differs from `lib/rw`. -/
theorem rw_never_readonly_upstream_witness :
    (⟨"lib/game/merged", AccessMode.ro⟩ : OverlayUpstream)
        ∈ upstreamList "lib"
            (scan "lib" [⟨"game", true⟩] (fun p => p == "lib/game/merged")) false
      ∧ ("lib/game/merged" : String) ≠ pathJoin "lib" "rw" :=
  ⟨by decide,
    rw_never_readonly_upstream "lib" [⟨"game", true⟩]
      (fun p => p == "lib/game/merged") false ⟨"lib/game/merged", AccessMode.ro⟩
      (by decide) rfl⟩

/-- C10: two runs over the same directory listing, the same
subdirectory-existence answers and the same write flag render the same
`UPSTREAMS` string, whatever the RNG draws, the map iteration orders, or
even the `MkdirAll` outcome of either run: the overlay assembly reads none
of them. -/
theorem upstreams_deterministic (src : String) (files : List DirEntry)
    (statIsDir : String → Bool) (enableWrite : Bool) (mk1 mk2 : Bool)
    (rand1 rand2 : Nat → Nat → Nat) (lf1 tf1 lf2 tf2 : Bool) :
    (createFS src files statIsDir enableWrite mk1 rand1 lf1 tf1).upstreamsOut
      = (createFS src files statIsDir enableWrite mk2 rand2 lf2 tf2).upstreamsOut := by
  unfold createFS
  by_cases h : (scan src files statIsDir).isEmpty <;>
    simp [h, RunOutcome.upstreamsOut]

end Romfu
